import Mathlib

/-!
# Recipe CRUD handlers (recipeController.js)

A shallow embedding of the four request handlers of
`backend/recipes/src/controller/recipeController.js` and of the `Recipe` model
they talk to.

* JavaScript values are a small JSON tree with `undefined` added.
* A handler is a function from a request and a store state to an `Outcome`:
  the new store state, the responses that were sent (in order) and the console
  lines that were written.
* The `Recipe` model is an interface (`RecipeModel`): every statement about a
  single handler is proved for all implementations of that interface.
* `memModel` is an in-memory implementation that follows the behaviour of a
  Mongoose model compiled from a schema. The controller imports its model from
  `../models/recipe.js`, a file that is not among the sources (the schema of
  `express_backend/src/models/recipe.js` belongs to another package and is not
  used here), so the schema is a parameter of `memModel`, and `Recipe` fixes it
  from the data model of the specification. The casters of the library are
  parameters as well.
-/

namespace RecipeController

/-! ## JavaScript values -/

/-- JavaScript values that can occur in a parsed JSON body, a Mongoose document
rendered to JSON, or as the result of a property read (`undefined`). -/
inductive JsVal where
  | undefined : JsVal
  | null : JsVal
  | bool (b : Bool) : JsVal
  | num (n : Int) : JsVal
  | str (s : String) : JsVal
  | arr (items : List JsVal) : JsVal
  | obj (fields : List (String × JsVal)) : JsVal

/-- Plain objects are lists of key/value pairs. -/
abbrev Fields := List (String × JsVal)

/-- Property read `o[key]` on a plain object given by its key/value list. -/
def getField (o : Fields) (key : String) : JsVal :=
  match o.lookup key with
  | some v => v
  | none => JsVal.undefined

/-- Property read `v[key]` on a value that is not `null` or `undefined`; only
own data properties of plain objects are modelled, every other read gives
`undefined`. -/
def getProp (v : JsVal) (key : String) : JsVal :=
  match v with
  | JsVal.obj fs => getField fs key
  | _ => JsVal.undefined

/-- JavaScript truthiness, as used by `if (recipe)`. -/
def truthy : JsVal → Bool
  | JsVal.undefined => false
  | JsVal.null => false
  | JsVal.bool b => b
  | JsVal.num n => n != 0
  | JsVal.str s => s != ""
  | JsVal.arr _ => true
  | JsVal.obj _ => true

/-- Test for the value `undefined`. -/
def isUndefined : JsVal → Bool
  | JsVal.undefined => true
  | _ => false

/-! ## Requests, responses, console -/

/-- The parts of an Express request the handlers read: the path parameters
(`req.params`, strings keyed by the name used in the route) and the parsed JSON
object body (`req.body`). -/
structure Request where
  params : List (String × String)
  body : Fields

/-- Read of `req.params[name]`. -/
def param (req : Request) (name : String) : JsVal :=
  match req.params.lookup name with
  | some s => JsVal.str s
  | none => JsVal.undefined

/-- One `res.status(code).json(body)` call. -/
structure Response where
  status : Nat
  body : JsVal

/-- One console line, with its arguments: `console.log(...)` or
`console.error(...)`. -/
inductive LogEntry where
  | log (args : List JsVal) : LogEntry
  | error (args : List JsVal) : LogEntry

/-- What running a handler leaves behind. -/
structure Outcome (σ : Type) where
  store : σ
  sent : List Response
  console : List LogEntry

/-! ## The model interface -/

/-- Options object of `findByIdAndUpdate`. -/
structure UpdateOptions where
  new : Bool

/-- The operations of the `Recipe` model that the controller calls, over a
store state `σ`. An operation returns the settled promise (`Except.ok` for a
fulfilled one, `Except.error` for a rejected one) and the next store state.
`construct` is `new Recipe(obj)`, which only builds a document in memory. -/
structure RecipeModel (σ : Type) where
  construct : JsVal → σ → JsVal × σ
  save : JsVal → σ → Except JsVal JsVal × σ
  findById : JsVal → σ → Except JsVal JsVal × σ
  findByIdAndUpdate : JsVal → JsVal → UpdateOptions → σ → Except JsVal JsVal × σ
  findByIdAndDelete : JsVal → σ → Except JsVal JsVal × σ

/-! ## The handlers -/

/-- The object literal that `createRecipe` hands to `new Recipe(...)` and that
`updateRecipe` hands to `findByIdAndUpdate`: the five keys, each read from the
body. -/
def recipeFields (body : Fields) : JsVal :=
  JsVal.obj
    [ ("name", getField body "name"),
      ("desc", getField body "desc"),
      ("imagePath", getField body "imagePath"),
      ("ingredientIds", getField body "ingredientIds"),
      ("ingredientAmountsInGram", getField body "ingredientAmountsInGram") ]

/-- Handler `getRecipe`. -/
def getRecipe {σ : Type} (M : RecipeModel σ) (req : Request) (s : σ) : Outcome σ :=
  let id := param req "id"
  match M.findById id s with
  | (Except.ok recipe, s1) =>
    if truthy recipe then
      { store := s1,
        sent := [{ status := 200, body := JsVal.obj [("recipe", recipe)] }],
        console := [LogEntry.log [JsVal.str "Recipe found: ", getProp recipe "name"]] }
    else
      { store := s1,
        sent := [{ status := 204, body := JsVal.str "Recipe does not exist." }],
        console := [LogEntry.log [JsVal.str "Recipe not found."]] }
  | (Except.error error, s1) =>
    { store := s1, sent := [],
      console := [LogEntry.error [JsVal.str "Error fetching recipe: ", error]] }

/-- Handler `createRecipe`. -/
def createRecipe {σ : Type} (M : RecipeModel σ) (req : Request) (s : σ) : Outcome σ :=
  match M.construct (recipeFields req.body) s with
  | (newRecipe, s1) =>
    match M.save newRecipe s1 with
    | (Except.ok savedRecipe, s2) =>
      { store := s2,
        sent := [{ status := 201, body := savedRecipe }],
        console := [LogEntry.log [JsVal.str "Recipe saved: ", savedRecipe]] }
    | (Except.error error, s2) =>
      { store := s2, sent := [],
        console := [LogEntry.error [JsVal.str "Error saving recipe: ", error]] }

/-- Handler `updateRecipe`. -/
def updateRecipe {σ : Type} (M : RecipeModel σ) (req : Request) (s : σ) : Outcome σ :=
  let recipeId := param req "id"
  match M.findByIdAndUpdate recipeId (recipeFields req.body) { new := true } s with
  | (Except.ok recipe, s1) =>
    { store := s1,
      sent := [{ status := 200, body := recipe }],
      console := [LogEntry.log [JsVal.str "Recipe updated: ", recipe]] }
  | (Except.error error, s1) =>
    { store := s1, sent := [],
      console := [LogEntry.error [JsVal.str "Error updating recipe: ", error]] }

/-- Handler `deleteRecipe`. -/
def deleteRecipe {σ : Type} (M : RecipeModel σ) (req : Request) (s : σ) : Outcome σ :=
  let recipeId := param req "id"
  match M.findByIdAndDelete recipeId s with
  | (Except.ok recipe, s1) =>
    { store := s1,
      sent := [{ status := 200, body := recipe }],
      console := [LogEntry.log [JsVal.str "Recipe deleted: ", recipe]] }
  | (Except.error error, s1) =>
    { store := s1, sent := [],
      console := [LogEntry.error [JsVal.str "Error deleting recipe: ", error]] }

/-! ## A model that records its calls -/

/-- A call made on the model, with its arguments. -/
inductive Call where
  | construct (o : JsVal) : Call
  | save (doc : JsVal) : Call
  | findById (id : JsVal) : Call
  | findByIdAndUpdate (id : JsVal) (update : JsVal) (opts : UpdateOptions) : Call
  | findByIdAndDelete (id : JsVal) : Call

/-- A model whose state is the list of calls received so far; every promise
settles with the given `answer`, and `new Recipe(o)` is `o` itself. -/
def spyModel (answer : Except JsVal JsVal) : RecipeModel (List Call) where
  construct := fun o calls => (o, calls ++ [Call.construct o])
  save := fun doc calls => (answer, calls ++ [Call.save doc])
  findById := fun id calls => (answer, calls ++ [Call.findById id])
  findByIdAndUpdate := fun id update opts calls =>
    (answer, calls ++ [Call.findByIdAndUpdate id update opts])
  findByIdAndDelete := fun id calls => (answer, calls ++ [Call.findByIdAndDelete id])

/-! ## An in-memory model compiled from a schema

The behaviour below is the one Mongoose documents for a model compiled from a
schema with default options:

* strict mode: keys that the schema does not declare are dropped, both by the
  document constructor and from an update document;
* keys whose value is `undefined` are not stored by the constructor; in an
  update document they are either stripped or stored as `null`, depending on the
  library version (`omitUndefined`);
* a declared array path that gets no value is constructed as the empty array;
* every value is cast to the declared type of its key; a value that cannot be
  cast makes `save` and `findByIdAndUpdate` reject; `null` is kept as it is;
* an identifier string is cast to an ObjectId before the collection is
  searched; a string that cannot be cast makes the operation reject;
* an update document without operators is applied as a `$set`;
* `save` inserts the document and stamps the version key `__v`;
* `_id` is unique in a collection;
* `findById(undefined)` resolves to `null`.

The two casters are parameters (`ModelConfig.castObjectId`, `ModelConfig.cast`):
which strings are identifiers and how a value of another type is converted
differ between library versions, and the statements below do not depend on it.
Connection failures are covered by the statements over an arbitrary
`RecipeModel`.
-/

/-- Declared type of a schema path. -/
inductive SchemaType where
  | string : SchemaType
  | number : SchemaType
  | numberArray : SchemaType
  deriving DecidableEq

/-- Test for a number. -/
def isNum : JsVal → Bool
  | JsVal.num _ => true
  | _ => false

/-- Values that already have a declared type. -/
def hasType : SchemaType → JsVal → Bool
  | SchemaType.string, JsVal.str _ => true
  | SchemaType.number, JsVal.num _ => true
  | SchemaType.numberArray, JsVal.arr items => items.all isNum
  | _, _ => false

/-- Compile-time data of a model: the schema, the treatment of `undefined` in
update documents, and the two casters of the library. `castObjectId` gives the
canonical form of an identifier string, or nothing when the string is no
identifier; `cast` converts a value to a declared type or fails. -/
structure ModelConfig where
  schema : List (String × SchemaType)
  omitUndefined : Bool
  castObjectId : String → Option String
  cast : SchemaType → JsVal → Except JsVal JsVal

/-- The one property of the value caster that is used: a value that already has
the declared type is cast to itself. -/
def ModelConfig.CastsTyped (cfg : ModelConfig) : Prop :=
  ∀ (t : SchemaType) (v : JsVal), hasType t v = true → cfg.cast t v = Except.ok v

/-- A collection: documents keyed by `_id`, and the counter the next `_id` is
made from. -/
structure MemStore where
  docs : List (String × Fields)
  nextId : Nat

/-- A 24 digit hexadecimal identifier made from a counter. -/
def objectIdOf (n : Nat) : String :=
  let ds := Nat.toDigits 16 n
  String.mk (List.replicate (24 - ds.length) '0' ++ ds)

/-- JSON rendering of a stored document. -/
def toJSON (id : String) (fs : Fields) : JsVal :=
  JsVal.obj (("_id", JsVal.str id) :: fs ++ [("__v", JsVal.num 0)])

/-- The error a rejected store promise carries. -/
def storeError (msg : String) : JsVal :=
  JsVal.obj [("message", JsVal.str msg)]

/-- Strict mode: keep the keys that the schema declares. -/
def strictFields (schema : List (String × SchemaType)) (o : JsVal) : Fields :=
  match o with
  | JsVal.obj fs => fs.filter (fun kv => (schema.lookup kv.1).isSome)
  | _ => []

/-- Empty arrays for the declared array paths that have no value. -/
def arrayDefaults (schema : List (String × SchemaType)) (fs : Fields) : Fields :=
  (schema.filter (fun p => decide (p.2 = SchemaType.numberArray)
      && (fs.lookup p.1).isNone)).map (fun p => (p.1, JsVal.arr []))

/-- Fields of a document built by `new Model(o)`, before casting. -/
def constructFields (cfg : ModelConfig) (o : JsVal) : Fields :=
  let fs := (strictFields cfg.schema o).filter (fun kv => !isUndefined kv.2)
  fs ++ arrayDefaults cfg.schema fs

/-- Casting of one value: `null` is kept, every other value goes through the
caster of the declared type. -/
def castValue (cfg : ModelConfig) (t : SchemaType) (v : JsVal) : Except JsVal JsVal :=
  match v with
  | JsVal.null => Except.ok JsVal.null
  | _ => cfg.cast t v

/-- Casting of the fields of an object, key by key; a key without a declared
type is dropped; the first failure is the result. -/
def castFields (cfg : ModelConfig) : Fields → Except JsVal Fields
  | [] => Except.ok []
  | (k, v) :: rest =>
    match cfg.schema.lookup k with
    | none => castFields cfg rest
    | some t =>
      match castValue cfg t v with
      | Except.error e => Except.error e
      | Except.ok v1 =>
        match castFields cfg rest with
        | Except.error e => Except.error e
        | Except.ok rest1 => Except.ok ((k, v1) :: rest1)

/-- Casting of an update document. -/
def castUpdate (cfg : ModelConfig) (update : JsVal) : Except JsVal Fields :=
  if cfg.omitUndefined then
    castFields cfg ((strictFields cfg.schema update).filter (fun kv => !isUndefined kv.2))
  else
    castFields cfg ((strictFields cfg.schema update).map
      (fun kv => (kv.1, if isUndefined kv.2 then JsVal.null else kv.2)))

/-- Assignment of one key of an object. -/
def setField (fs : Fields) (k : String) (v : JsVal) : Fields :=
  match fs.lookup k with
  | some _ => fs.map (fun kv => if kv.1 == k then (k, v) else kv)
  | none => fs ++ [(k, v)]

/-- Application of a `$set`. -/
def applySet (fs : Fields) (update : Fields) : Fields :=
  update.foldl (fun acc kv => setField acc kv.1 kv.2) fs

/-- Removal of the first document with the given `_id`. -/
def eraseDoc (i : String) : List (String × Fields) → List (String × Fields)
  | [] => []
  | d :: ds => if d.1 == i then ds else d :: eraseDoc i ds

/-- Replacement of the first document with the given `_id`. -/
def replaceDoc (i : String) (fs : Fields) : List (String × Fields) → List (String × Fields)
  | [] => []
  | d :: ds => if d.1 == i then (i, fs) :: ds else d :: replaceDoc i fs ds

/-- Document constructor `new Model(o)`: strict fields and a fresh `_id`. -/
def MemStore.construct (cfg : ModelConfig) (o : JsVal) (s : MemStore) : JsVal × MemStore :=
  (JsVal.obj (("_id", JsVal.str (objectIdOf s.nextId)) :: constructFields cfg o),
   { s with nextId := s.nextId + 1 })

/-- Method `doc.save()` on a new document: validation (the casting of its
fields), then the insertion. -/
def MemStore.save (cfg : ModelConfig) (doc : JsVal) (s : MemStore) :
    Except JsVal JsVal × MemStore :=
  match doc with
  | JsVal.obj ((k, JsVal.str id) :: fs) =>
    if k == "_id" then
      match castFields cfg fs with
      | Except.error e => (Except.error e, s)
      | Except.ok fs1 =>
        match s.docs.lookup id with
        | some _ => (Except.error (storeError "E11000 duplicate key error"), s)
        | none => (Except.ok (toJSON id fs1), { s with docs := s.docs ++ [(id, fs1)] })
    else (Except.error (storeError "document must have an _id before saving"), s)
  | _ => (Except.error (storeError "document must have an _id before saving"), s)

/-- Static `Model.findById(id)`. -/
def MemStore.findById (cfg : ModelConfig) (id : JsVal) (s : MemStore) :
    Except JsVal JsVal × MemStore :=
  match id with
  | JsVal.str i =>
    match cfg.castObjectId i with
    | none => (Except.error (storeError "Cast to ObjectId failed"), s)
    | some oid =>
      match s.docs.lookup oid with
      | some fs => (Except.ok (toJSON oid fs), s)
      | none => (Except.ok JsVal.null, s)
  | _ => (Except.ok JsVal.null, s)

/-- Static `Model.findByIdAndUpdate(id, update, opts)`: the identifier and the
update document are cast, then the document is looked up; an id that is not a
string matches no document. -/
def MemStore.findByIdAndUpdate (cfg : ModelConfig) (id : JsVal) (update : JsVal)
    (opts : UpdateOptions) (s : MemStore) : Except JsVal JsVal × MemStore :=
  match id with
  | JsVal.str i =>
    match cfg.castObjectId i with
    | none => (Except.error (storeError "Cast to ObjectId failed"), s)
    | some oid =>
      match castUpdate cfg update with
      | Except.error e => (Except.error e, s)
      | Except.ok u =>
        match s.docs.lookup oid with
        | some fs =>
          (Except.ok (toJSON oid (if opts.new then applySet fs u else fs)),
           { s with docs := replaceDoc oid (applySet fs u) s.docs })
        | none => (Except.ok JsVal.null, s)
  | _ =>
    match castUpdate cfg update with
    | Except.error e => (Except.error e, s)
    | Except.ok _ => (Except.ok JsVal.null, s)

/-- Static `Model.findByIdAndDelete(id)`; an id that is not a string matches
no document. -/
def MemStore.findByIdAndDelete (cfg : ModelConfig) (id : JsVal) (s : MemStore) :
    Except JsVal JsVal × MemStore :=
  match id with
  | JsVal.str i =>
    match cfg.castObjectId i with
    | none => (Except.error (storeError "Cast to ObjectId failed"), s)
    | some oid =>
      match s.docs.lookup oid with
      | some fs => (Except.ok (toJSON oid fs), { s with docs := eraseDoc oid s.docs })
      | none => (Except.ok JsVal.null, s)
  | _ => (Except.ok JsVal.null, s)

/-- The model compiled from a schema. -/
def memModel (cfg : ModelConfig) : RecipeModel MemStore where
  construct := MemStore.construct cfg
  save := MemStore.save cfg
  findById := MemStore.findById cfg
  findByIdAndUpdate := MemStore.findByIdAndUpdate cfg
  findByIdAndDelete := MemStore.findByIdAndDelete cfg

/-- Modelled from the spec: the schema declared in `../models/recipe.js`, the
model file the controller imports, which is not among the sources. Section 3
(data model): `name`, `desc` and `imagePath` are strings, `ingredientIds` and
`ingredientAmountsInGram` are ordered sequences of integers. -/
def recipeSchema : List (String × SchemaType) :=
  [ ("name", SchemaType.string),
    ("desc", SchemaType.string),
    ("imagePath", SchemaType.string),
    ("ingredientIds", SchemaType.numberArray),
    ("ingredientAmountsInGram", SchemaType.numberArray) ]

/-- Modelled from the spec: the configuration of the `Recipe` model exported by
`../models/recipe.js`, which is not among the sources. The schema is
`recipeSchema`. Section 3 (lifecycle): the update operation is a replacement and
not a merge, every field is overwritten with whatever the request supplies,
`undefined` or absent included; so `undefined` update keys are not stripped. The
two casters are those of the library and stay parameters. -/
def recipeConfig (castObjectId : String → Option String)
    (cast : SchemaType → JsVal → Except JsVal JsVal) : ModelConfig :=
  { schema := recipeSchema, omitUndefined := false,
    castObjectId := castObjectId, cast := cast }

/-- Modelled from the spec: the `Recipe` model exported by `../models/recipe.js`,
which is not among the sources; it is the model compiled from `recipeConfig`. -/
def Recipe (castObjectId : String → Option String)
    (cast : SchemaType → JsVal → Except JsVal JsVal) : RecipeModel MemStore :=
  memModel (recipeConfig castObjectId cast)

/-- A model whose connection is down: every promise is rejected. -/
def offlineModel : RecipeModel Unit where
  construct := fun o s => (o, s)
  save := fun _ s => (Except.error (storeError "connection lost"), s)
  findById := fun _ s => (Except.error (storeError "connection lost"), s)
  findByIdAndUpdate := fun _ _ _ s => (Except.error (storeError "connection lost"), s)
  findByIdAndDelete := fun _ s => (Except.error (storeError "connection lost"), s)

/-- Uniqueness of `_id` in a collection. -/
def MemStore.UniqueIds (s : MemStore) : Prop :=
  (s.docs.map Prod.fst).Nodup

/-- The keys the controller reads from a request body. -/
def controllerSchema : List String :=
  ["name", "desc", "imagePath", "ingredientIds", "ingredientAmountsInGram"]

/-- A valid creation input: each of the five fields is supplied with a value of
its type. -/
def ValidRecipeInput (body : Fields) : Prop :=
  ∀ p ∈ recipeSchema, hasType p.2 (getField body p.1) = true

/-- A body that supplies a subset of the five recipe fields: each of them is
either absent or a value of its type. -/
def PartialRecipeInput (body : Fields) : Prop :=
  ∀ p ∈ recipeSchema,
    getField body p.1 = JsVal.undefined ∨ hasType p.2 (getField body p.1) = true

/-! ## Requests, stores and casters used as concrete inputs -/

/-- Test for a hexadecimal digit. -/
def isHexDigit (c : Char) : Bool :=
  c.isDigit || (decide ('a' ≤ c) && decide (c ≤ 'f')) || (decide ('A' ≤ c) && decide (c ≤ 'F'))

/-- An identifier caster: the strings of 24 hexadecimal digits, which every
version of the library takes as an ObjectId, in lower case. -/
def hexObjectId (s : String) : Option String :=
  if s.data.length = 24 ∧ s.data.all isHexDigit = true then
    some (String.mk (s.data.map Char.toLower))
  else none

/-- A value caster: a value that has the declared type is accepted as it is,
every other value is refused. It is one caster with the property
`ModelConfig.CastsTyped`; the conversions the library applies to values of
another type are left out of it. -/
def exactCast (t : SchemaType) (v : JsVal) : Except JsVal JsVal :=
  if hasType t v then Except.ok v else Except.error (storeError "Cast failed")

/-- The request body of the documented example. -/
def scrambledEggs : Fields :=
  [ ("name", JsVal.str "Scrambled Eggs"),
    ("desc", JsVal.str "4 eggs, salt, pepper"),
    ("imagePath", JsVal.str "../images/scrambled_eggs.jpg"),
    ("ingredientIds", JsVal.arr [JsVal.num 100001, JsVal.num 100002, JsVal.num 100003]),
    ("ingredientAmountsInGram", JsVal.arr [JsVal.num 50, JsVal.num 1400, JsVal.num 360]) ]

/-- The fields of the documented example after an update that supplies only the
name "Omelette". -/
def renamedEggs : Fields :=
  [ ("name", JsVal.str "Omelette"),
    ("desc", JsVal.null),
    ("imagePath", JsVal.null),
    ("ingredientIds", JsVal.null),
    ("ingredientAmountsInGram", JsVal.null) ]

/-- The empty collection. -/
def emptyStore : MemStore := { docs := [], nextId := 0 }

/-- The identifier the empty collection gives to its first document. -/
def firstId : String := "000000000000000000000000"

/-- Modelled from the spec: the request a handler gets for the path
`/recipes/{recipeId}` (section 4.1: the identifier is a string taken from the
request path). The router is not among the sources; Express stores the value of
the path segment in `req.params` under the name that the route pattern gives it,
and the three handlers read the key `id`. -/
def recipeRequest (recipeId : String) (body : Fields) : Request :=
  { params := [("id", recipeId)], body := body }

/-- A request for `/recipes/{firstId}` whose route names the parameter `id`. -/
def reqFirst (body : Fields) : Request :=
  { params := [("id", firstId)], body := body }

/-- A request for `/recipes/{firstId}` that supplies only a new name. -/
def reqRename : Request :=
  reqFirst [("name", JsVal.str "Omelette")]

/-- A collection holding one recipe with the fields of the documented example. -/
def eggsStore : MemStore :=
  { docs := [(firstId, scrambledEggs)], nextId := 1 }

/-- The `Recipe` model with the two concrete casters. -/
def testRecipe : RecipeModel MemStore :=
  Recipe hexObjectId exactCast

/-! ## Lemmas on collections -/

theorem lookup_eraseDoc_self (i : String) (ds : List (String × Fields))
    (h : (ds.map Prod.fst).Nodup) : (eraseDoc i ds).lookup i = none := by
  induction ds with
  | nil => rfl
  | cons d ds ih =>
    obtain ⟨k, fs⟩ := d
    simp only [List.map_cons, List.nodup_cons] at h
    by_cases hk : k = i
    · subst hk
      simp only [eraseDoc, beq_self_eq_true, if_true]
      rw [List.lookup_eq_none_iff]
      intro p hp
      simp only [bne_iff_ne, ne_eq]
      intro hpe
      exact h.1 (hpe ▸ List.mem_map_of_mem Prod.fst hp)
    · have hne : (k == i) = false := by simpa using hk
      have hne2 : (i == k) = false := by simpa using fun h1 : i = k => hk h1.symm
      simp only [eraseDoc, hne, Bool.false_eq_true, if_false, List.lookup_cons, hne2]
      exact ih h.2

theorem lookup_replaceDoc_self (i : String) (fs1 : Fields) (ds : List (String × Fields))
    (fs : Fields) (h : ds.lookup i = some fs) : (replaceDoc i fs1 ds).lookup i = some fs1 := by
  induction ds with
  | nil => simp at h
  | cons d ds ih =>
    obtain ⟨k, gs⟩ := d
    by_cases hk : k = i
    · subst hk
      simp [replaceDoc]
    · have hne : (k == i) = false := by simpa using hk
      have hne2 : (i == k) = false := by simpa using fun h1 : i = k => hk h1.symm
      simp only [List.lookup_cons, hne2] at h
      simp only [replaceDoc, hne, Bool.false_eq_true, if_false, List.lookup_cons, hne2]
      exact ih h

theorem lookup_append_new (i : String) (fs : Fields) (ds : List (String × Fields))
    (h : ds.lookup i = none) : (ds ++ [(i, fs)]).lookup i = some fs := by
  induction ds with
  | nil => simp
  | cons d ds ih =>
    obtain ⟨k, gs⟩ := d
    by_cases hk : i = k
    · subst hk
      simp at h
    · have hne : (i == k) = false := by simpa using hk
      simp only [List.lookup_cons, hne] at h
      simp only [List.cons_append, List.lookup_cons, hne]
      exact ih h

theorem map_fst_replaceDoc (i : String) (fs : Fields) (ds : List (String × Fields)) :
    (replaceDoc i fs ds).map Prod.fst = ds.map Prod.fst := by
  induction ds with
  | nil => rfl
  | cons d ds ih =>
    obtain ⟨k, gs⟩ := d
    by_cases hk : k = i
    · subst hk
      simp [replaceDoc]
    · have hne : (k == i) = false := by simpa using hk
      simp only [replaceDoc, hne, Bool.false_eq_true, if_false, List.map_cons, ih]

theorem eraseDoc_sublist (i : String) (ds : List (String × Fields)) :
    (eraseDoc i ds).Sublist ds := by
  induction ds with
  | nil => exact List.Sublist.refl _
  | cons d ds ih =>
    by_cases hk : (d.1 == i) = true
    · simp only [eraseDoc, hk, if_true]
      exact List.sublist_cons_self d ds
    · simp only [eraseDoc, hk, Bool.false_eq_true, if_false]
      exact ih.cons₂ d

theorem emptyStore_uniqueIds : emptyStore.UniqueIds := by
  simp [MemStore.UniqueIds, emptyStore]

/-- Uniqueness of `_id` is kept by every operation of the in-memory model. -/
theorem uniqueIds_preserved (cfg : ModelConfig) (s : MemStore) (hu : s.UniqueIds) :
    (∀ o, (MemStore.construct cfg o s).2.UniqueIds) ∧
      (∀ doc, (MemStore.save cfg doc s).2.UniqueIds) ∧
      (∀ id, (MemStore.findById cfg id s).2.UniqueIds) ∧
      (∀ id update opts, (MemStore.findByIdAndUpdate cfg id update opts s).2.UniqueIds) ∧
      (∀ id, (MemStore.findByIdAndDelete cfg id s).2.UniqueIds) := by
  refine ⟨fun _ => hu, ?_, ?_, ?_, ?_⟩
  · intro doc
    unfold MemStore.save
    split
    · rename_i k id fs
      split
      · split
        · exact hu
        · split
          · exact hu
          · rename_i hnone
            have hnot : id ∉ s.docs.map Prod.fst := by
              intro hm
              obtain ⟨q, hq, hqk⟩ := List.mem_map.1 hm
              have := (List.lookup_eq_none_iff.1 hnone) q hq
              simp [hqk] at this
            simp only [MemStore.UniqueIds, List.map_append, List.map_cons, List.map_nil]
            refine List.Nodup.append hu (List.nodup_singleton id) ?_
            intro a ha hb
            rw [List.mem_singleton] at hb
            exact hnot (hb ▸ ha)
      · exact hu
    · exact hu
  · intro id
    unfold MemStore.findById
    split
    · split
      · exact hu
      · split <;> exact hu
    · exact hu
  · intro id update opts
    unfold MemStore.findByIdAndUpdate
    split
    · split
      · exact hu
      · split
        · exact hu
        · split
          · simp only [MemStore.UniqueIds, map_fst_replaceDoc]
            exact hu
          · exact hu
    · split <;> exact hu
  · intro id
    unfold MemStore.findByIdAndDelete
    split
    · split
      · exact hu
      · split
        · exact List.Nodup.sublist ((eraseDoc_sublist _ _).map Prod.fst) hu
        · exact hu
    · exact hu

/-! ## Lemmas on objects -/

theorem lookup_none_of_not_mem_keys (k : String) (l : Fields)
    (h : k ∉ l.map Prod.fst) : l.lookup k = none := by
  rw [List.lookup_eq_none_iff]
  intro p hp
  simp only [bne_iff_ne, ne_eq]
  intro hk
  exact h (hk ▸ List.mem_map_of_mem Prod.fst hp)

theorem lookup_map_assign (k k1 : String) (v : JsVal) (fs : Fields) :
    (fs.map (fun kv => if kv.1 == k then (k, v) else kv)).lookup k1 =
      if k1 = k then (fs.lookup k).map (fun _ => v) else fs.lookup k1 := by
  induction fs with
  | nil => by_cases hk : k1 = k <;> simp [hk]
  | cons a t ih =>
    obtain ⟨a, b⟩ := a
    by_cases ha : a = k
    · subst ha
      by_cases hk : k1 = a
      · subst hk
        simp
      · have hne : (k1 == a) = false := by simpa using hk
        simp only [List.map_cons, beq_self_eq_true, if_true, List.lookup_cons, hne, ih, hk,
          if_false]
    · have hak : (a == k) = false := by simpa using ha
      have hka : (k == a) = false := by simpa using fun h : k = a => ha h.symm
      by_cases hk : k1 = a
      · subst hk
        simp [hak, ha]
      · have hne : (k1 == a) = false := by simpa using hk
        simp only [List.map_cons, hak, Bool.false_eq_true, if_false, List.lookup_cons, hne, ih,
          hka]

theorem lookup_setField (fs : Fields) (k k1 : String) (v : JsVal) :
    (setField fs k v).lookup k1 = if k1 = k then some v else fs.lookup k1 := by
  unfold setField
  cases hl : fs.lookup k with
  | none =>
    simp only [List.lookup_append]
    by_cases hk : k1 = k
    · subst hk
      simp [hl]
    · have hne : (k1 == k) = false := by simpa using hk
      simp [hk, List.lookup_cons, hne]
  | some w =>
    simp only [lookup_map_assign, hl, Option.map_some']

theorem lookup_applySet (update : Fields) (fs : Fields) (k : String)
    (h : (update.map Prod.fst).Nodup) :
    (applySet fs update).lookup k =
      match update.lookup k with
      | some v => some v
      | none => fs.lookup k := by
  induction update generalizing fs with
  | nil => rfl
  | cons a t ih =>
    obtain ⟨a, b⟩ := a
    simp only [List.map_cons, List.nodup_cons] at h
    have step : applySet fs ((a, b) :: t) = applySet (setField fs a b) t := rfl
    rw [step, ih _ h.2, lookup_setField]
    by_cases hk : k = a
    · subst hk
      simp [lookup_none_of_not_mem_keys k t h.1]
    · have hne : (k == a) = false := by simpa using hk
      simp [List.lookup_cons, hne, hk]

theorem getField_of_lookup (fs : Fields) (k : String) (v : JsVal)
    (h : fs.lookup k = some v) : getField fs k = v := by
  simp only [getField, h]

theorem isUndefined_eq_true (v : JsVal) : isUndefined v = true ↔ v = JsVal.undefined := by
  cases v <;> simp [isUndefined]


theorem exactCast_castsTyped (schema : List (String × SchemaType)) (strip : Bool)
    (castObjectId : String → Option String) :
    ModelConfig.CastsTyped ⟨schema, strip, castObjectId, exactCast⟩ := by
  intro t v h
  simp [exactCast, h]

theorem hasType_ne_undefined (t : SchemaType) (v : JsVal) (h : hasType t v = true) :
    isUndefined v = false := by
  cases v <;> cases t <;> simp_all [hasType, isUndefined]

theorem castValue_typed (cfg : ModelConfig) (hc : cfg.CastsTyped) (t : SchemaType) (v : JsVal)
    (h : hasType t v = true) : castValue cfg t v = Except.ok v := by
  cases v <;> first | exact hc t _ h | (cases t <;> simp [hasType] at h)

theorem castValue_cleared (cfg : ModelConfig) (hc : cfg.CastsTyped) (t : SchemaType)
    (v : JsVal) (h : v = JsVal.undefined ∨ hasType t v = true) :
    castValue cfg t (if isUndefined v = true then JsVal.null else v)
      = Except.ok (if isUndefined v = true then JsVal.null else v) := by
  rcases h with h | h
  · subst h
    rfl
  · rw [hasType_ne_undefined t v h]
    simp only [Bool.false_eq_true, if_false]
    exact castValue_typed cfg hc t v h


/-! ## Single handlers, over an arbitrary model -/

/-- C1: when `findById` on the request id is fulfilled with an entity `e`,
`getRecipe` sends exactly one response, with status 200 and the object
`{recipe: e}` as body. -/
theorem getRecipe_found {σ : Type} (M : RecipeModel σ) (req : Request) (s s1 : σ)
    (fs : Fields) (h : M.findById (param req "id") s = (Except.ok (JsVal.obj fs), s1)) :
    (getRecipe M req s).sent =
      [{ status := 200, body := JsVal.obj [("recipe", JsVal.obj fs)] }] := by
  simp [getRecipe, h, truthy]

theorem getRecipe_found_witness :
    (spyModel (Except.ok (toJSON firstId scrambledEggs))).findById (param (reqFirst []) "id") []
        = (Except.ok (JsVal.obj (("_id", JsVal.str firstId) ::
            scrambledEggs ++ [("__v", JsVal.num 0)])), [Call.findById (JsVal.str firstId)]) ∧
      (getRecipe (spyModel (Except.ok (toJSON firstId scrambledEggs))) (reqFirst []) []).sent =
        [{ status := 200,
           body := JsVal.obj [("recipe", JsVal.obj (("_id", JsVal.str firstId) ::
            scrambledEggs ++ [("__v", JsVal.num 0)]))] }] :=
  ⟨rfl, getRecipe_found (spyModel (Except.ok (toJSON firstId scrambledEggs))) (reqFirst []) []
    _ _ rfl⟩

/-- C2: when `findById` on the request id is fulfilled with no entity (`null`),
`getRecipe` sends exactly one response, with status 204 and the string
"Recipe does not exist." as body; no response with a 5xx status is sent. -/
theorem getRecipe_not_found {σ : Type} (M : RecipeModel σ) (req : Request) (s s1 : σ)
    (h : M.findById (param req "id") s = (Except.ok JsVal.null, s1)) :
    (getRecipe M req s).sent =
        [{ status := 204, body := JsVal.str "Recipe does not exist." }] ∧
      ∀ r ∈ (getRecipe M req s).sent, ¬ (500 ≤ r.status ∧ r.status ≤ 599) := by
  have hs : (getRecipe M req s).sent =
      [{ status := 204, body := JsVal.str "Recipe does not exist." }] := by
    simp [getRecipe, h, truthy]
  refine ⟨hs, ?_⟩
  intro r hr
  rw [hs] at hr
  simp only [List.mem_singleton] at hr
  subst hr
  decide

theorem getRecipe_not_found_witness :
    (spyModel (Except.ok JsVal.null)).findById (param (reqFirst []) "id") []
        = (Except.ok JsVal.null, [Call.findById (JsVal.str firstId)]) ∧
      ((getRecipe (spyModel (Except.ok JsVal.null)) (reqFirst []) []).sent =
          [{ status := 204, body := JsVal.str "Recipe does not exist." }] ∧
        ∀ r ∈ (getRecipe (spyModel (Except.ok JsVal.null)) (reqFirst []) []).sent,
          ¬ (500 ≤ r.status ∧ r.status ≤ 599)) :=
  ⟨rfl, getRecipe_not_found (spyModel (Except.ok JsVal.null)) (reqFirst []) [] _ rfl⟩

/-- C3: for every request body, `createRecipe` constructs the entity from the
object holding exactly the five keys name, desc, imagePath, ingredientIds and
ingredientAmountsInGram read from the body (no check that a key is present),
asks the model to save that entity and nothing else, and whenever the save is
fulfilled with `saved` it sends exactly one response, with status 201 and
`saved` as body. -/
theorem createRecipe_created {σ : Type} (M : RecipeModel σ) (req : Request) (s s2 : σ)
    (saved : JsVal)
    (h : M.save (M.construct (recipeFields req.body) s).1
          (M.construct (recipeFields req.body) s).2 = (Except.ok saved, s2)) :
    (createRecipe M req s).sent = [{ status := 201, body := saved }] ∧
      (createRecipe M req s).store = s2 ∧
      ∀ answer : Except JsVal JsVal,
        (createRecipe (spyModel answer) req []).store =
          [Call.construct (JsVal.obj
              [ ("name", getField req.body "name"),
                ("desc", getField req.body "desc"),
                ("imagePath", getField req.body "imagePath"),
                ("ingredientIds", getField req.body "ingredientIds"),
                ("ingredientAmountsInGram", getField req.body "ingredientAmountsInGram") ]),
            Call.save (JsVal.obj
              [ ("name", getField req.body "name"),
                ("desc", getField req.body "desc"),
                ("imagePath", getField req.body "imagePath"),
                ("ingredientIds", getField req.body "ingredientIds"),
                ("ingredientAmountsInGram", getField req.body "ingredientAmountsInGram") ])] := by
  refine ⟨?_, ?_, fun a => by cases a <;> rfl⟩
  · simp only [createRecipe]
    rw [h]
  · simp only [createRecipe]
    rw [h]

theorem createRecipe_created_witness :
    (createRecipe (spyModel (Except.ok (toJSON firstId scrambledEggs)))
        ⟨[], scrambledEggs⟩ []).sent
      = [{ status := 201, body := toJSON firstId scrambledEggs }] :=
  (createRecipe_created (spyModel (Except.ok (toJSON firstId scrambledEggs)))
    ⟨[], scrambledEggs⟩ [] _ (toJSON firstId scrambledEggs) rfl).1

/-- C4: whenever `findByIdAndUpdate` is fulfilled with a value, `updateRecipe`
sends exactly one response, with status 200 and that value as body (first
part). With the in-memory model, for an identifier and an update document that
the model casts, the fulfilled value is the document as stored after the update
when the id exists (second part) and `null` when no document has that id (third
part); the status is then 200 as well, not 204 or 404. -/
theorem updateRecipe_ok :
    (∀ (σ : Type) (M : RecipeModel σ) (req : Request) (s s1 : σ) (v : JsVal),
        M.findByIdAndUpdate (param req "id") (recipeFields req.body) { new := true } s
            = (Except.ok v, s1) →
          (updateRecipe M req s).sent = [{ status := 200, body := v }]) ∧
      (∀ (cfg : ModelConfig) (req : Request) (s : MemStore) (i oid : String)
          (u fs : Fields),
        param req "id" = JsVal.str i → cfg.castObjectId i = some oid →
        castUpdate cfg (recipeFields req.body) = Except.ok u →
        s.docs.lookup oid = some fs →
          ∃ fs1 : Fields,
            (updateRecipe (memModel cfg) req s).store.docs.lookup oid = some fs1 ∧
            (updateRecipe (memModel cfg) req s).sent =
              [{ status := 200, body := toJSON oid fs1 }]) ∧
      (∀ (cfg : ModelConfig) (req : Request) (s : MemStore) (i oid : String) (u : Fields),
        param req "id" = JsVal.str i → cfg.castObjectId i = some oid →
        castUpdate cfg (recipeFields req.body) = Except.ok u →
        s.docs.lookup oid = none →
          (updateRecipe (memModel cfg) req s).sent =
            [{ status := 200, body := JsVal.null }]) := by
  refine ⟨?_, ?_, ?_⟩
  · intro σ M req s s1 v h
    simp only [updateRecipe]
    rw [h]
  · intro cfg req s i oid u fs hp hc hu hl
    refine ⟨applySet fs u, ?_, ?_⟩
    · simp only [updateRecipe, memModel, MemStore.findByIdAndUpdate, hp, hc, hu, hl]
      exact lookup_replaceDoc_self oid _ s.docs fs hl
    · simp [updateRecipe, memModel, MemStore.findByIdAndUpdate, hp, hc, hu, hl]
  · intro cfg req s i oid u hp hc hu hl
    simp [updateRecipe, memModel, MemStore.findByIdAndUpdate, hp, hc, hu, hl]

theorem updateRecipe_ok_witness :
    (updateRecipe testRecipe reqRename eggsStore).sent =
        [{ status := 200, body := toJSON firstId renamedEggs }] ∧
      (∃ fs1 : Fields,
        (updateRecipe testRecipe reqRename eggsStore).store.docs.lookup firstId = some fs1 ∧
        (updateRecipe testRecipe reqRename eggsStore).sent =
          [{ status := 200, body := toJSON firstId fs1 }]) ∧
      (updateRecipe testRecipe reqRename emptyStore).sent =
        [{ status := 200, body := JsVal.null }] :=
  ⟨updateRecipe_ok.1 MemStore testRecipe reqRename eggsStore _ (toJSON firstId renamedEggs) rfl,
    updateRecipe_ok.2.1 (recipeConfig hexObjectId exactCast) reqRename eggsStore firstId
      firstId renamedEggs scrambledEggs rfl rfl rfl rfl,
    updateRecipe_ok.2.2 (recipeConfig hexObjectId exactCast) reqRename emptyStore firstId
      firstId renamedEggs rfl rfl rfl rfl⟩

/-- C5: whenever `findByIdAndDelete` is fulfilled with a value, `deleteRecipe`
sends exactly one response, with status 200 and that value as body (first
part). With the in-memory model, for an identifier that the model casts, the
fulfilled value is the last stored state of the deleted document when the id
exists (second part) and `null` when no document has that id (third part). -/
theorem deleteRecipe_ok :
    (∀ (σ : Type) (M : RecipeModel σ) (req : Request) (s s1 : σ) (v : JsVal),
        M.findByIdAndDelete (param req "id") s = (Except.ok v, s1) →
          (deleteRecipe M req s).sent = [{ status := 200, body := v }]) ∧
      (∀ (cfg : ModelConfig) (req : Request) (s : MemStore) (i oid : String) (fs : Fields),
        param req "id" = JsVal.str i → cfg.castObjectId i = some oid →
        s.docs.lookup oid = some fs →
          (deleteRecipe (memModel cfg) req s).sent =
            [{ status := 200, body := toJSON oid fs }]) ∧
      (∀ (cfg : ModelConfig) (req : Request) (s : MemStore) (i oid : String),
        param req "id" = JsVal.str i → cfg.castObjectId i = some oid →
        s.docs.lookup oid = none →
          (deleteRecipe (memModel cfg) req s).sent =
            [{ status := 200, body := JsVal.null }]) := by
  refine ⟨?_, ?_, ?_⟩
  · intro σ M req s s1 v h
    simp only [deleteRecipe]
    rw [h]
  · intro cfg req s i oid fs hp hc hl
    simp [deleteRecipe, memModel, MemStore.findByIdAndDelete, hp, hc, hl]
  · intro cfg req s i oid hp hc hl
    simp [deleteRecipe, memModel, MemStore.findByIdAndDelete, hp, hc, hl]

theorem deleteRecipe_ok_witness :
    (deleteRecipe testRecipe (reqFirst []) eggsStore).sent =
        [{ status := 200, body := toJSON firstId scrambledEggs }] ∧
      (deleteRecipe testRecipe (reqFirst []) emptyStore).sent =
        [{ status := 200, body := JsVal.null }] :=
  ⟨deleteRecipe_ok.2.1 (recipeConfig hexObjectId exactCast) (reqFirst []) eggsStore firstId
      firstId scrambledEggs rfl rfl rfl,
    deleteRecipe_ok.2.2 (recipeConfig hexObjectId exactCast) (reqFirst []) emptyStore firstId
      firstId rfl rfl rfl⟩

/-- C6: for each of `getRecipe`, `createRecipe`, `updateRecipe` and
`deleteRecipe`, on every request and store state: if the one store operation of
the handler is rejected, no response is sent; and a response is sent if and
only if that operation is fulfilled. -/
theorem no_response_iff_store_failure {σ : Type} (M : RecipeModel σ) (req : Request) (s : σ) :
    ((∀ e s1, M.findById (param req "id") s = (Except.error e, s1) →
          (getRecipe M req s).sent = []) ∧
        ((getRecipe M req s).sent ≠ [] ↔
          ∃ v s1, M.findById (param req "id") s = (Except.ok v, s1))) ∧
      ((∀ e s2, M.save (M.construct (recipeFields req.body) s).1
              (M.construct (recipeFields req.body) s).2 = (Except.error e, s2) →
          (createRecipe M req s).sent = []) ∧
        ((createRecipe M req s).sent ≠ [] ↔
          ∃ v s2, M.save (M.construct (recipeFields req.body) s).1
              (M.construct (recipeFields req.body) s).2 = (Except.ok v, s2))) ∧
      ((∀ e s1, M.findByIdAndUpdate (param req "id") (recipeFields req.body)
              { new := true } s = (Except.error e, s1) →
          (updateRecipe M req s).sent = []) ∧
        ((updateRecipe M req s).sent ≠ [] ↔
          ∃ v s1, M.findByIdAndUpdate (param req "id") (recipeFields req.body)
              { new := true } s = (Except.ok v, s1))) ∧
      ((∀ e s1, M.findByIdAndDelete (param req "id") s = (Except.error e, s1) →
          (deleteRecipe M req s).sent = []) ∧
        ((deleteRecipe M req s).sent ≠ [] ↔
          ∃ v s1, M.findByIdAndDelete (param req "id") s = (Except.ok v, s1))) := by
  refine ⟨⟨?_, ?_⟩, ⟨?_, ?_⟩, ⟨?_, ?_⟩, ⟨?_, ?_⟩⟩
  · intro e s1 h
    simp only [getRecipe]
    rw [h]
  · simp only [getRecipe]
    rcases hr : M.findById (param req "id") s with ⟨r, s1⟩
    cases r with
    | error e => simp
    | ok v => by_cases ht : truthy v = true <;> simp [ht]
  · intro e s2 h
    simp only [createRecipe]
    rw [h]
  · simp only [createRecipe]
    rcases hr : M.save (M.construct (recipeFields req.body) s).1
      (M.construct (recipeFields req.body) s).2 with ⟨r, s2⟩
    cases r with
    | error e => simp
    | ok v => simp
  · intro e s1 h
    simp only [updateRecipe]
    rw [h]
  · simp only [updateRecipe]
    rcases hr : M.findByIdAndUpdate (param req "id") (recipeFields req.body)
      { new := true } s with ⟨r, s1⟩
    cases r with
    | error e => simp
    | ok v => simp
  · intro e s1 h
    simp only [deleteRecipe]
    rw [h]
  · simp only [deleteRecipe]
    rcases hr : M.findByIdAndDelete (param req "id") s with ⟨r, s1⟩
    cases r with
    | error e => simp
    | ok v => simp

theorem no_response_iff_store_failure_witness :
    (getRecipe offlineModel (reqFirst scrambledEggs) ()).sent = [] ∧
      (createRecipe offlineModel (reqFirst scrambledEggs) ()).sent = [] ∧
      (updateRecipe offlineModel (reqFirst scrambledEggs) ()).sent = [] ∧
      (deleteRecipe offlineModel (reqFirst scrambledEggs) ()).sent = [] ∧
      (getRecipe (spyModel (Except.ok JsVal.null)) (reqFirst scrambledEggs) []).sent ≠ [] :=
  ⟨(no_response_iff_store_failure offlineModel (reqFirst scrambledEggs) ()).1.1 _ _ rfl,
    (no_response_iff_store_failure offlineModel (reqFirst scrambledEggs) ()).2.1.1 _ _ rfl,
    (no_response_iff_store_failure offlineModel (reqFirst scrambledEggs) ()).2.2.1.1 _ _ rfl,
    (no_response_iff_store_failure offlineModel (reqFirst scrambledEggs) ()).2.2.2.1 _ _ rfl,
    (no_response_iff_store_failure (spyModel (Except.ok JsVal.null)) (reqFirst scrambledEggs)
      []).1.2.mpr ⟨_, _, rfl⟩⟩

/-! ## Sequences of handlers, over the in-memory model -/

/-- C9: for every id of a stored entity (in a collection with unique ids),
`deleteRecipe` on that id responds 200 with the entity, and `getRecipe` on the
same id afterwards responds 204 with the body "Recipe does not exist.". -/
theorem delete_then_get_not_found (cfg : ModelConfig) (req : Request) (s : MemStore)
    (i oid : String) (fs : Fields) (hu : s.UniqueIds) (hp : param req "id" = JsVal.str i)
    (hc : cfg.castObjectId i = some oid) (hl : s.docs.lookup oid = some fs) :
    (deleteRecipe (memModel cfg) req s).sent = [{ status := 200, body := toJSON oid fs }] ∧
      (getRecipe (memModel cfg) req (deleteRecipe (memModel cfg) req s).store).sent =
        [{ status := 204, body := JsVal.str "Recipe does not exist." }] := by
  have he : (eraseDoc oid s.docs).lookup oid = none := lookup_eraseDoc_self oid s.docs hu
  constructor
  · simp [deleteRecipe, memModel, MemStore.findByIdAndDelete, hp, hc, hl]
  · simp [deleteRecipe, getRecipe, memModel, MemStore.findByIdAndDelete, MemStore.findById,
      hp, hc, hl, he, truthy]

theorem delete_then_get_not_found_witness :
    (deleteRecipe testRecipe (reqFirst []) eggsStore).sent =
        [{ status := 200, body := toJSON firstId scrambledEggs }] ∧
      (getRecipe testRecipe (reqFirst [])
          (deleteRecipe testRecipe (reqFirst []) eggsStore).store).sent =
        [{ status := 204, body := JsVal.str "Recipe does not exist." }] :=
  delete_then_get_not_found (recipeConfig hexObjectId exactCast) (reqFirst []) eggsStore
    firstId firstId scrambledEggs (by simp [MemStore.UniqueIds, eggsStore]) rfl rfl rfl


theorem constructFields_valid (castObjectId : String → Option String)
    (cast : SchemaType → JsVal → Except JsVal JsVal) (body : Fields)
    (hv : ValidRecipeInput body) :
    constructFields (recipeConfig castObjectId cast) (recipeFields body) =
      [ ("name", getField body "name"),
        ("desc", getField body "desc"),
        ("imagePath", getField body "imagePath"),
        ("ingredientIds", getField body "ingredientIds"),
        ("ingredientAmountsInGram", getField body "ingredientAmountsInGram") ] := by
  have h1 := hasType_ne_undefined _ _ (hv ("name", SchemaType.string) (by simp [recipeSchema]))
  have h2 := hasType_ne_undefined _ _ (hv ("desc", SchemaType.string) (by simp [recipeSchema]))
  have h3 := hasType_ne_undefined _ _
    (hv ("imagePath", SchemaType.string) (by simp [recipeSchema]))
  have h4 := hasType_ne_undefined _ _
    (hv ("ingredientIds", SchemaType.numberArray) (by simp [recipeSchema]))
  have h5 := hasType_ne_undefined _ _
    (hv ("ingredientAmountsInGram", SchemaType.numberArray) (by simp [recipeSchema]))
  simp only at h1 h2 h3 h4 h5
  simp [constructFields, strictFields, recipeFields, recipeConfig, recipeSchema, arrayDefaults,
    List.filter, List.lookup, h1, h2, h3, h4, h5]

theorem castFields_valid (castObjectId : String → Option String)
    (cast : SchemaType → JsVal → Except JsVal JsVal)
    (hlaw : (recipeConfig castObjectId cast).CastsTyped) (body : Fields)
    (hv : ValidRecipeInput body) :
    castFields (recipeConfig castObjectId cast)
      [ ("name", getField body "name"),
        ("desc", getField body "desc"),
        ("imagePath", getField body "imagePath"),
        ("ingredientIds", getField body "ingredientIds"),
        ("ingredientAmountsInGram", getField body "ingredientAmountsInGram") ] =
      Except.ok
      [ ("name", getField body "name"),
        ("desc", getField body "desc"),
        ("imagePath", getField body "imagePath"),
        ("ingredientIds", getField body "ingredientIds"),
        ("ingredientAmountsInGram", getField body "ingredientAmountsInGram") ] := by
  have h1 := castValue_typed _ hlaw _ _ (hv ("name", SchemaType.string) (by simp [recipeSchema]))
  have h2 := castValue_typed _ hlaw _ _ (hv ("desc", SchemaType.string) (by simp [recipeSchema]))
  have h3 := castValue_typed _ hlaw _ _
    (hv ("imagePath", SchemaType.string) (by simp [recipeSchema]))
  have h4 := castValue_typed _ hlaw _ _
    (hv ("ingredientIds", SchemaType.numberArray) (by simp [recipeSchema]))
  have h5 := castValue_typed _ hlaw _ _
    (hv ("ingredientAmountsInGram", SchemaType.numberArray) (by simp [recipeSchema]))
  simp only at h1 h2 h3 h4 h5
  have hs : (recipeConfig castObjectId cast).schema = recipeSchema := rfl
  simp [castFields, hs, recipeSchema, List.lookup, h1, h2, h3, h4, h5]

theorem castUpdate_partial (castObjectId : String → Option String)
    (cast : SchemaType → JsVal → Except JsVal JsVal)
    (hlaw : (recipeConfig castObjectId cast).CastsTyped) (body : Fields)
    (hb : PartialRecipeInput body) :
    castUpdate (recipeConfig castObjectId cast) (recipeFields body) =
      Except.ok
      [ ("name", if isUndefined (getField body "name") = true then JsVal.null
          else getField body "name"),
        ("desc", if isUndefined (getField body "desc") = true then JsVal.null
          else getField body "desc"),
        ("imagePath", if isUndefined (getField body "imagePath") = true then JsVal.null
          else getField body "imagePath"),
        ("ingredientIds", if isUndefined (getField body "ingredientIds") = true then JsVal.null
          else getField body "ingredientIds"),
        ("ingredientAmountsInGram",
          if isUndefined (getField body "ingredientAmountsInGram") = true then JsVal.null
          else getField body "ingredientAmountsInGram") ] := by
  have h1 := castValue_cleared _ hlaw _ _ (hb ("name", SchemaType.string) (by simp [recipeSchema]))
  have h2 := castValue_cleared _ hlaw _ _ (hb ("desc", SchemaType.string) (by simp [recipeSchema]))
  have h3 := castValue_cleared _ hlaw _ _
    (hb ("imagePath", SchemaType.string) (by simp [recipeSchema]))
  have h4 := castValue_cleared _ hlaw _ _
    (hb ("ingredientIds", SchemaType.numberArray) (by simp [recipeSchema]))
  have h5 := castValue_cleared _ hlaw _ _
    (hb ("ingredientAmountsInGram", SchemaType.numberArray) (by simp [recipeSchema]))
  simp only at h1 h2 h3 h4 h5
  have hs : (recipeConfig castObjectId cast).schema = recipeSchema := rfl
  have ho : (recipeConfig castObjectId cast).omitUndefined = false := rfl
  simp only [castUpdate, ho, Bool.false_eq_true, if_false, strictFields, recipeFields, hs]
  simp [castFields, hs, recipeSchema, List.filter, List.lookup, h1, h2, h3, h4, h5]

/-- C7: for every valid creation input (each of the five fields supplied with a
value of its type), with the `Recipe` model, on every collection in which the
identifier the store assigns is not in use: `createRecipe` responds 201 with an
entity that carries the assigned id, and `getRecipe` with that id responds 200
with `{recipe: e}` for the same entity `e`, in which each of `name`, `desc`,
`imagePath`, `ingredientIds` and `ingredientAmountsInGram` equals the input
field. -/
theorem create_then_get_roundtrip (castObjectId : String → Option String)
    (cast : SchemaType → JsVal → Except JsVal JsVal)
    (hlaw : (recipeConfig castObjectId cast).CastsTyped) (body : Fields)
    (hv : ValidRecipeInput body) (s : MemStore)
    (hfresh : s.docs.lookup (objectIdOf s.nextId) = none)
    (hid : castObjectId (objectIdOf s.nextId) = some (objectIdOf s.nextId)) :
    ∃ e : JsVal,
      (createRecipe (Recipe castObjectId cast) ⟨[], body⟩ s).sent =
        [{ status := 201, body := e }] ∧
      getProp e "_id" = JsVal.str (objectIdOf s.nextId) ∧
      (getRecipe (Recipe castObjectId cast) (recipeRequest (objectIdOf s.nextId) [])
          (createRecipe (Recipe castObjectId cast) ⟨[], body⟩ s).store).sent =
        [{ status := 200, body := JsVal.obj [("recipe", e)] }] ∧
      getProp e "name" = getField body "name" ∧
      getProp e "desc" = getField body "desc" ∧
      getProp e "imagePath" = getField body "imagePath" ∧
      getProp e "ingredientIds" = getField body "ingredientIds" ∧
      getProp e "ingredientAmountsInGram" = getField body "ingredientAmountsInGram" := by
  have hcf := constructFields_valid castObjectId cast body hv
  have hca := castFields_valid castObjectId cast hlaw body hv
  have hn := lookup_append_new (objectIdOf s.nextId)
    [ ("name", getField body "name"),
      ("desc", getField body "desc"),
      ("imagePath", getField body "imagePath"),
      ("ingredientIds", getField body "ingredientIds"),
      ("ingredientAmountsInGram", getField body "ingredientAmountsInGram") ] s.docs hfresh
  have hci : (recipeConfig castObjectId cast).castObjectId (objectIdOf s.nextId)
      = some (objectIdOf s.nextId) := hid
  refine ⟨toJSON (objectIdOf s.nextId)
    [ ("name", getField body "name"),
      ("desc", getField body "desc"),
      ("imagePath", getField body "imagePath"),
      ("ingredientIds", getField body "ingredientIds"),
      ("ingredientAmountsInGram", getField body "ingredientAmountsInGram") ],
    ?_, rfl, ?_, rfl, rfl, rfl, rfl, rfl⟩
  · simp [createRecipe, Recipe, memModel, MemStore.construct, MemStore.save, hcf, hca, hfresh]
  · simp [createRecipe, getRecipe, Recipe, memModel, MemStore.construct, MemStore.save,
      MemStore.findById, hcf, hca, hfresh, param, recipeRequest, hci, hn, truthy, toJSON]

theorem create_then_get_roundtrip_witness :
    ValidRecipeInput scrambledEggs ∧
      ∃ e : JsVal,
        (createRecipe testRecipe ⟨[], scrambledEggs⟩ emptyStore).sent =
          [{ status := 201, body := e }] ∧
        getProp e "_id" = JsVal.str firstId ∧
        (getRecipe testRecipe (recipeRequest firstId [])
            (createRecipe testRecipe ⟨[], scrambledEggs⟩ emptyStore).store).sent =
          [{ status := 200, body := JsVal.obj [("recipe", e)] }] ∧
        getProp e "name" = JsVal.str "Scrambled Eggs" ∧
        getProp e "desc" = JsVal.str "4 eggs, salt, pepper" ∧
        getProp e "imagePath" = JsVal.str "../images/scrambled_eggs.jpg" ∧
        getProp e "ingredientIds" =
          JsVal.arr [JsVal.num 100001, JsVal.num 100002, JsVal.num 100003] ∧
        getProp e "ingredientAmountsInGram" =
          JsVal.arr [JsVal.num 50, JsVal.num 1400, JsVal.num 360] :=
  have hv : ValidRecipeInput scrambledEggs := by
    intro p hp
    simp only [recipeSchema, List.mem_cons, List.mem_singleton, List.not_mem_nil,
      or_false] at hp
    rcases hp with h | h | h | h | h <;> subst h <;> rfl
  ⟨hv, create_then_get_roundtrip hexObjectId exactCast
    (exactCast_castsTyped recipeSchema false hexObjectId) scrambledEggs hv emptyStore rfl rfl⟩

theorem getField_cleared (fs : Fields) (body : Fields) (k : String)
    (hk : k ∈ controllerSchema) :
    (applySet fs
      [ ("name", if isUndefined (getField body "name") = true then JsVal.null
          else getField body "name"),
        ("desc", if isUndefined (getField body "desc") = true then JsVal.null
          else getField body "desc"),
        ("imagePath", if isUndefined (getField body "imagePath") = true then JsVal.null
          else getField body "imagePath"),
        ("ingredientIds", if isUndefined (getField body "ingredientIds") = true then JsVal.null
          else getField body "ingredientIds"),
        ("ingredientAmountsInGram",
          if isUndefined (getField body "ingredientAmountsInGram") = true then JsVal.null
          else getField body "ingredientAmountsInGram") ]).lookup k =
      some (if isUndefined (getField body k) = true then JsVal.null else getField body k) := by
  rw [lookup_applySet _ fs k (by simp only [List.map_cons, List.map_nil]; decide)]
  simp only [controllerSchema, List.mem_cons, List.mem_singleton, List.not_mem_nil,
    or_false] at hk
  rcases hk with h | h | h | h | h <;> subst h <;> rfl

theorem getProp_toJSON (i : String) (fs : Fields) (k : String) (hk : k ∈ controllerSchema) :
    getProp (toJSON i fs) k = getField fs k := by
  have h1 : (k == "_id") = false := by
    simp only [controllerSchema, List.mem_cons, List.mem_singleton, List.not_mem_nil,
      or_false] at hk
    rcases hk with h | h | h | h | h <;> subst h <;> decide
  have h2 : (k == "__v") = false := by
    simp only [controllerSchema, List.mem_cons, List.mem_singleton, List.not_mem_nil,
      or_false] at hk
    rcases hk with h | h | h | h | h <;> subst h <;> decide
  simp only [getProp, toJSON, getField, List.lookup_cons, h1, List.lookup_append, h2,
    List.lookup_nil, Option.or_none]

/-- C8: for every body that supplies a subset of the five recipe fields and
every id of a stored recipe, `updateRecipe` hands the model the update document
with the five keys name, desc, imagePath, ingredientIds and
ingredientAmountsInGram, each set to the value of the body at that key
(`undefined` when absent); with the `Recipe` model it responds 200 with the
document after the update, and a fetch of the same id afterwards returns that
document: its id is unchanged, every field that the request supplied has the
supplied value, and every field that the request left out has lost its old value
(it is `null`), it is not merged. -/
theorem updateRecipe_then_get (castObjectId : String → Option String)
    (cast : SchemaType → JsVal → Except JsVal JsVal)
    (hlaw : (recipeConfig castObjectId cast).CastsTyped) (req : Request) (s : MemStore)
    (i oid : String) (fs : Fields) (hp : param req "id" = JsVal.str i)
    (hc : castObjectId i = some oid) (hl : s.docs.lookup oid = some fs)
    (hb : PartialRecipeInput req.body) :
    (∀ answer : Except JsVal JsVal,
        (updateRecipe (spyModel answer) req []).store =
          [Call.findByIdAndUpdate (param req "id")
            (JsVal.obj
              [ ("name", getField req.body "name"),
                ("desc", getField req.body "desc"),
                ("imagePath", getField req.body "imagePath"),
                ("ingredientIds", getField req.body "ingredientIds"),
                ("ingredientAmountsInGram", getField req.body "ingredientAmountsInGram") ])
            { new := true }]) ∧
      ∃ e : JsVal,
        (updateRecipe (Recipe castObjectId cast) req s).sent =
          [{ status := 200, body := e }] ∧
        (getRecipe (Recipe castObjectId cast) req
            (updateRecipe (Recipe castObjectId cast) req s).store).sent =
          [{ status := 200, body := JsVal.obj [("recipe", e)] }] ∧
        getProp e "_id" = JsVal.str oid ∧
        ∀ k ∈ controllerSchema,
          (getField req.body k ≠ JsVal.undefined → getProp e k = getField req.body k) ∧
          (getField req.body k = JsVal.undefined → getProp e k = JsVal.null) := by
  have hu := castUpdate_partial castObjectId cast hlaw req.body hb
  have hci : (recipeConfig castObjectId cast).castObjectId i = some oid := hc
  generalize hdef :
    ([ ("name", if isUndefined (getField req.body "name") = true then JsVal.null
          else getField req.body "name"),
        ("desc", if isUndefined (getField req.body "desc") = true then JsVal.null
          else getField req.body "desc"),
        ("imagePath", if isUndefined (getField req.body "imagePath") = true then JsVal.null
          else getField req.body "imagePath"),
        ("ingredientIds",
          if isUndefined (getField req.body "ingredientIds") = true then JsVal.null
          else getField req.body "ingredientIds"),
        ("ingredientAmountsInGram",
          if isUndefined (getField req.body "ingredientAmountsInGram") = true then JsVal.null
          else getField req.body "ingredientAmountsInGram") ] : Fields) = u at hu
  have hlk : ∀ k ∈ controllerSchema, (applySet fs u).lookup k =
      some (if isUndefined (getField req.body k) = true then JsVal.null
        else getField req.body k) := by
    intro k hk
    rw [← hdef]
    exact getField_cleared fs req.body k hk
  refine ⟨fun a => by cases a <;> rfl, toJSON oid (applySet fs u), ?_, ?_, rfl, ?_⟩
  · simp [updateRecipe, Recipe, memModel, MemStore.findByIdAndUpdate, hp, hci, hu, hl]
  · have hr := lookup_replaceDoc_self oid (applySet fs u) s.docs fs hl
    simp [updateRecipe, getRecipe, Recipe, memModel, MemStore.findByIdAndUpdate,
      MemStore.findById, hp, hci, hu, hl, hr, truthy, toJSON]
  · intro k hk
    rw [getProp_toJSON _ _ k hk, getField_of_lookup _ _ _ (hlk k hk)]
    constructor
    · intro hne
      have hun : isUndefined (getField req.body k) = false := by
        cases hi : isUndefined (getField req.body k) with
        | false => rfl
        | true => exact absurd ((isUndefined_eq_true _).1 hi) hne
      simp [hun]
    · intro heq
      simp [(isUndefined_eq_true _).2 heq]

theorem updateRecipe_then_get_witness :
    PartialRecipeInput reqRename.body ∧
      eggsStore.docs.lookup firstId = some scrambledEggs ∧
      ∃ e : JsVal,
        (updateRecipe testRecipe reqRename eggsStore).sent =
          [{ status := 200, body := e }] ∧
        (getRecipe testRecipe reqRename
            (updateRecipe testRecipe reqRename eggsStore).store).sent =
          [{ status := 200, body := JsVal.obj [("recipe", e)] }] ∧
        getProp e "_id" = JsVal.str firstId ∧
        getProp e "name" = JsVal.str "Omelette" ∧
        getProp e "desc" = JsVal.null :=
  have hb : PartialRecipeInput reqRename.body := by
    intro p hp
    simp only [recipeSchema, List.mem_cons, List.mem_singleton, List.not_mem_nil,
      or_false] at hp
    rcases hp with h | h | h | h | h <;> subst h
    · exact Or.inr rfl
    · exact Or.inl rfl
    · exact Or.inl rfl
    · exact Or.inl rfl
    · exact Or.inl rfl
  ⟨hb, rfl,
    match (updateRecipe_then_get hexObjectId exactCast
      (exactCast_castsTyped recipeSchema false hexObjectId) reqRename eggsStore firstId firstId
      scrambledEggs rfl rfl rfl hb).2 with
    | ⟨e, h1, h2, h3, h4⟩ =>
      ⟨e, h1, h2, h3,
        (h4 "name" (by decide)).1 (fun h => JsVal.noConfusion h),
        (h4 "desc" (by decide)).2 rfl⟩⟩

/-- C10: each of `getRecipe`, `updateRecipe` and `deleteRecipe` hands the model,
as identifier, the path parameter of the request (first part; for a request to
`/recipes/{recipeId}` that is the value of the path segment, second part); and
with the in-memory model a request whose path parameter is the id of a stored
recipe is looked up, deleted and updated under that id (third part). -/
theorem handlers_use_path_parameter :
    (∀ (answer : Except JsVal JsVal) (req : Request),
        (getRecipe (spyModel answer) req []).store = [Call.findById (param req "id")] ∧
        (updateRecipe (spyModel answer) req []).store =
          [Call.findByIdAndUpdate (param req "id") (recipeFields req.body) { new := true }] ∧
        (deleteRecipe (spyModel answer) req []).store =
          [Call.findByIdAndDelete (param req "id")]) ∧
      (∀ (answer : Except JsVal JsVal) (recipeId : String) (body : Fields),
        (getRecipe (spyModel answer) (recipeRequest recipeId body) []).store =
          [Call.findById (JsVal.str recipeId)] ∧
        (updateRecipe (spyModel answer) (recipeRequest recipeId body) []).store =
          [Call.findByIdAndUpdate (JsVal.str recipeId) (recipeFields body) { new := true }] ∧
        (deleteRecipe (spyModel answer) (recipeRequest recipeId body) []).store =
          [Call.findByIdAndDelete (JsVal.str recipeId)]) ∧
      (∀ (cfg : ModelConfig) (s : MemStore) (recipeId oid : String) (fs : Fields)
          (body : Fields),
        cfg.castObjectId recipeId = some oid → s.docs.lookup oid = some fs →
          (getRecipe (memModel cfg) (recipeRequest recipeId body) s).sent =
            [{ status := 200, body := JsVal.obj [("recipe", toJSON oid fs)] }] ∧
          (deleteRecipe (memModel cfg) (recipeRequest recipeId body) s).sent =
            [{ status := 200, body := toJSON oid fs }] ∧
          (deleteRecipe (memModel cfg) (recipeRequest recipeId body) s).store.docs =
            eraseDoc oid s.docs ∧
          ∀ u : Fields, castUpdate cfg (recipeFields body) = Except.ok u →
            (updateRecipe (memModel cfg) (recipeRequest recipeId body) s).sent =
              [{ status := 200, body := toJSON oid (applySet fs u) }] ∧
            (updateRecipe (memModel cfg) (recipeRequest recipeId body) s).store.docs =
              replaceDoc oid (applySet fs u) s.docs) := by
  have spy : ∀ (answer : Except JsVal JsVal) (req : Request),
      (getRecipe (spyModel answer) req []).store = [Call.findById (param req "id")] ∧
      (updateRecipe (spyModel answer) req []).store =
        [Call.findByIdAndUpdate (param req "id") (recipeFields req.body) { new := true }] ∧
      (deleteRecipe (spyModel answer) req []).store =
        [Call.findByIdAndDelete (param req "id")] := by
    intro answer req
    cases answer with
    | error e => exact ⟨rfl, rfl, rfl⟩
    | ok v =>
      refine ⟨?_, rfl, rfl⟩
      simp only [getRecipe, spyModel]
      split <;> rfl
  refine ⟨spy, fun answer recipeId body => spy answer (recipeRequest recipeId body), ?_⟩
  intro cfg s recipeId oid fs body hc hl
  have hp : param (recipeRequest recipeId body) "id" = JsVal.str recipeId := rfl
  refine ⟨?_, ?_, ?_, ?_⟩
  · simp [getRecipe, memModel, MemStore.findById, hp, hc, hl, truthy, toJSON]
  · simp [deleteRecipe, memModel, MemStore.findByIdAndDelete, hp, hc, hl]
  · simp [deleteRecipe, memModel, MemStore.findByIdAndDelete, hp, hc, hl]
  · intro u hu
    have hb : (recipeRequest recipeId body).body = body := rfl
    constructor
    · simp [updateRecipe, memModel, MemStore.findByIdAndUpdate, hp, hb, hc, hu, hl]
    · simp [updateRecipe, memModel, MemStore.findByIdAndUpdate, hp, hb, hc, hu, hl]

theorem handlers_use_path_parameter_witness :
    hexObjectId firstId = some firstId ∧
      eggsStore.docs.lookup firstId = some scrambledEggs ∧
      (getRecipe testRecipe (recipeRequest firstId []) eggsStore).sent =
        [{ status := 200, body := JsVal.obj [("recipe", toJSON firstId scrambledEggs)] }] ∧
      (deleteRecipe testRecipe (recipeRequest firstId []) eggsStore).sent =
        [{ status := 200, body := toJSON firstId scrambledEggs }] ∧
      (deleteRecipe testRecipe (recipeRequest firstId []) eggsStore).store.docs = [] :=
  ⟨rfl, rfl,
    (handlers_use_path_parameter.2.2 (recipeConfig hexObjectId exactCast) eggsStore firstId
      firstId scrambledEggs [] rfl rfl).1,
    (handlers_use_path_parameter.2.2 (recipeConfig hexObjectId exactCast) eggsStore firstId
      firstId scrambledEggs [] rfl rfl).2.1,
    (handlers_use_path_parameter.2.2 (recipeConfig hexObjectId exactCast) eggsStore firstId
      firstId scrambledEggs [] rfl rfl).2.2.1⟩

end RecipeController
